import Mathlib

/-!
Shallow embedding of the GitHub-to-Notion synchronisation script
(scripts/notion_sync.py) and proofs of its specified properties.

Python values flowing through the script (JSON payloads, entity fields)
are modelled by the inductive type JValue; Python truthiness is jTruthy.
Python dictionaries are modelled as association lists with unique keys,
looked up by alistGet (first match wins, as in dict.get).
The Notion client is modelled as a pair of oracles (create, update)
returning Except values: an .error result models a raised exception
(APIResponseError or any other), an .ok result a normal return.
-/

set_option maxHeartbeats 1000000

namespace NotionSync

/-- Model of a Python/JSON value as carried by webhook payloads. -/
inductive JValue where
  | null
  | bool (b : Bool)
  | num (n : Int)
  | str (s : String)
  | arr (items : List JValue)
  | obj (fields : List (String × JValue))

/-- Association-list lookup modelling Python dict.get (first matching key). -/
def alistGet {α : Type} (l : List (String × α)) (key : String) : Option α :=
  (l.find? (fun p => p.1 == key)).map (fun p => p.2)

/-- Python truthiness of a JValue (bool(x)). -/
def jTruthy : JValue → Bool
  | .null => false
  | .bool b => b
  | .num n => n != 0
  | .str s => s != ""
  | .arr items => !items.isEmpty
  | .obj fields => !fields.isEmpty

/-- Model of entity.get(key): the stored value, or None when the key is absent. -/
def jGet (fields : List (String × JValue)) (key : String) : JValue :=
  match alistGet fields key with
  | some v => v
  | none => .null

/-- Python or-expression on modelled values: a or b. -/
def pyOr (a b : JValue) : JValue :=
  if jTruthy a then a else b

/-- Python truthiness of an optional string (None and the empty string are falsy). -/
def optTruthy : Option String → Bool
  | none => false
  | some s => s != ""

/-- Embeds entity_identifier: node_id or id or number or name
(Python or-chain over dict.get results). -/
def entity_identifier (entity : List (String × JValue)) : JValue :=
  pyOr (jGet entity "node_id")
    (pyOr (jGet entity "id")
      (pyOr (jGet entity "number") (jGet entity "name")))

/-- Spec-side definition for the refinement Claim C3, following the spec words:
the first non-null value in priority order, none when all are null. -/
def firstNonNull : List JValue → JValue
  | [] => .null
  | v :: vs => match v with
    | .null => firstNonNull vs
    | _ => v

/-- Spec-side reading of Claim C3 as the claim states it. -/
def entity_identifier_claimed (entity : List (String × JValue)) : JValue :=
  firstNonNull
    [jGet entity "node_id", jGet entity "id", jGet entity "number", jGet entity "name"]

/-- Spec-side description of a Python or-chain: the first truthy value,
or the last element when none is truthy (null for the empty chain). -/
def firstTruthyOrLast : List JValue → JValue
  | [] => .null
  | [v] => v
  | v :: vs => if jTruthy v then v else firstTruthyOrLast vs

/-- Model of a Notion rich-text block (type, text.content). -/
structure RichTextBlock where
  type : String
  content : String

/-- Embeds notion_rich_text: truncate to 1897 characters plus an ellipsis
when the content exceeds 1900 characters, then wrap in a single text block. -/
def notion_rich_text (content : String) : List RichTextBlock :=
  let content :=
    if content.length > 1900 then String.mk (content.data.take 1897) ++ "..." else content
  [{ type := "text", content := content }]

/-- Joins character-list chunks with a separator. -/
def joinSep (sep : List Char) : List (List Char) → List Char
  | [] => []
  | [x] => x
  | x :: xs => x ++ sep ++ joinSep sep xs

/-- Lowercase hex digit character, as produced by Python json escaping. -/
def hexDigitChar (n : Nat) : Char :=
  if n < 10 then Char.ofNat (48 + n) else Char.ofNat (87 + n)

/-- Model of the escaping Python json.dump applies to one character with
ensure_ascii=False: quote, backslash and control characters are escaped,
everything else is emitted literally. -/
def encChar (c : Char) : List Char :=
  if c = '"' then ['\\', '"']
  else if c = '\\' then ['\\', '\\']
  else if c = '\n' then ['\\', 'n']
  else if c = '\t' then ['\\', 't']
  else if c = '\r' then ['\\', 'r']
  else if c = Char.ofNat 8 then ['\\', 'b']
  else if c = Char.ofNat 12 then ['\\', 'f']
  else if c.toNat < 32 then
    ['\\', 'u', '0', '0', hexDigitChar (c.toNat / 16), hexDigitChar (c.toNat % 16)]
  else [c]

/-- Escapes every character of a string body. -/
def encodeChars : List Char → List Char
  | [] => []
  | c :: cs => encChar c ++ encodeChars cs

/-- Model of the JSON serialisation of a string, quotes included. -/
def encString (s : String) : List Char :=
  '"' :: (encodeChars s.data ++ ['"'])

/-- Code-point comparison of character lists, as Python compares strings. -/
def charListLe : List Char → List Char → Bool
  | [], _ => true
  | _ :: _, [] => false
  | a :: as, b :: bs =>
    if a.toNat < b.toNat then true
    else if b.toNat < a.toNat then false
    else charListLe as bs

/-- Python string ordering used by sort_keys=True. -/
def strLe (a b : String) : Bool := charListLe a.data b.data

/-- Sorts association-list entries by key (sorted(dict.items())). -/
def sortPairsByKey {α : Type} (l : List (String × α)) : List (String × α) :=
  l.insertionSort (fun p q => strLe p.1 q.1 = true)

/-- Embeds json.dumps(value, ensure_ascii=False, sort_keys=True) with the
default separators, as used to serialise the Metadata blob. -/
def jDumpValue : JValue → List Char
  | .null => ['n', 'u', 'l', 'l']
  | .bool b => if b then ['t', 'r', 'u', 'e'] else ['f', 'a', 'l', 's', 'e']
  | .num n => (toString n).data
  | .str s => encString s
  | .arr items =>
    '[' :: (joinSep [',', ' '] (items.attach.map (fun it => jDumpValue it.1)) ++ [']'])
  | .obj fields =>
    let encoded := fields.attach.map (fun p => (p.1.1, jDumpValue p.1.2))
    '\x7b' :: (joinSep [',', ' ']
      ((sortPairsByKey encoded).map (fun p => encString p.1 ++ (':' :: ' ' :: p.2))) ++ ['\x7d'])
termination_by v => sizeOf v
decreasing_by
  all_goals simp_wf
  · have h := List.sizeOf_lt_of_mem it.2
    omega
  · have h := List.sizeOf_lt_of_mem p.2
    have h2 : sizeOf p.1 = 1 + sizeOf p.1.1 + sizeOf p.1.2 := rfl
    omega

/-- Model of Python str.title() with letters as the cased characters:
a letter not preceded by a letter is uppercased, other letters lowercased. -/
def pyTitleAux : Bool → List Char → List Char
  | _, [] => []
  | prevCased, c :: cs =>
    if c.isAlpha then
      (if prevCased then c.toLower else c.toUpper) :: pyTitleAux true cs
    else
      c :: pyTitleAux false cs

/-- Model of Python str.title() on a string. -/
def pyTitle (s : String) : String := String.mk (pyTitleAux false s.data)

/-- Model of the typed Notion property values produced by the script. -/
inductive PropValue where
  | title (rt : List RichTextBlock)
  | url (u : String)
  | select (name : String)
  | date (start : String)
  | rich_text (rt : List RichTextBlock)
  | number (n : Int)

/-- A Notion page property dictionary keyed by property name. -/
abbrev Props := List (String × PropValue)

/-- Embeds build_common_properties: the shared property dictionary, with each
optional field included only when the source value is Python-truthy
(Number is included whenever it is not None). -/
def build_common_properties (title : String) (url state updated_at : Option String)
    (metadata : Option (List (String × JValue)))
    (type_name : Option String) (number : Option Int) : Props :=
  [("Name", PropValue.title (notion_rich_text (if title != "" then title else "Untitled")))]
  ++ (if optTruthy url then [("URL", PropValue.url (url.getD ""))] else [])
  ++ (if optTruthy state then
        [("State", PropValue.select
          (if optTruthy state then pyTitle (state.getD "") else "Unknown"))]
      else [])
  ++ (if optTruthy updated_at then
        [("Last Updated", PropValue.date (updated_at.getD ""))]
      else [])
  ++ (match metadata with
      | some fields =>
        if !fields.isEmpty then
          [("Metadata",
            PropValue.rich_text (notion_rich_text (String.mk (jDumpValue (.obj fields)))))]
        else []
      | none => [])
  ++ (if optTruthy type_name then [("Type", PropValue.select (type_name.getD ""))] else [])
  ++ (match number with
      | some n => [("Number", PropValue.number n)]
      | none => [])

/-- Embeds the DATABASE_ENV_VARS table mapping event types to the
environment variables that hold Notion database ids. -/
def DATABASE_ENV_VARS : List (String × String) :=
  [("issues", "NOTION_ISSUE_DATABASE_ID"),
   ("pull_request", "NOTION_PULL_REQUEST_DATABASE_ID"),
   ("discussion", "NOTION_DISCUSSION_DATABASE_ID"),
   ("project", "NOTION_PROJECT_DATABASE_ID"),
   ("workflow_run", "NOTION_WORKFLOW_DATABASE_ID")]

/-- Name of the fallback database environment variable. -/
def DEFAULT_DATABASE_ENV : String := "NOTION_DEFAULT_DATABASE_ID"

/-- Embeds ensure_database_id: look up the event-specific variable, fall back
to the default variable when it is unset or empty. -/
def ensure_database_id (event_type : String) (env : List (String × String)) : Option String :=
  match alistGet DATABASE_ENV_VARS event_type with
  | some specificEnv =>
    match alistGet env specificEnv with
    | some dbId => if dbId != "" then some dbId else alistGet env DEFAULT_DATABASE_ENV
    | none => alistGet env DEFAULT_DATABASE_ENV
  | none => alistGet env DEFAULT_DATABASE_ENV

/-- Embeds make_mapping_key: the colon-joined cache key. -/
def make_mapping_key (event_type : String) (github_id : String) : String :=
  event_type ++ ":" ++ github_id

/-- Python dict assignment on the modelled cache: overwrite the entry in
place when the key exists, append a fresh entry otherwise. -/
def cacheSet (c : List (String × String)) (key v : String) : List (String × String) :=
  if c.any (fun p => p.1 == key) then
    c.map (fun p => if p.1 == key then (p.1, v) else p)
  else c ++ [(key, v)]

/-- Trace record of a remote Notion call made during an upsert:
which operation ran and what the client returned (an .error result models a
raised exception). -/
inductive RemoteCall where
  | create (databaseId : String) (result : Except Unit (Option String))
  | update (pageId : String) (result : Except Unit Unit)

/-- The narrow client capability used by the script: pages.create returns a
response whose id field may be absent, pages.update returns nothing;
an .error models a raised APIResponseError or other exception. -/
structure RemoteClient where
  create : String → Props → Except Unit (Option String)
  update : String → Props → Except Unit Unit

/-- The outcome of one upsert_page call: the returned pair, the cache state
after the call, and the trace of remote calls made. -/
structure UpsertResult where
  changed : Bool
  notionId : Option String
  mappings : List (String × String)
  calls : List RemoteCall

/-- Embeds NotionSyncContext.upsert_page: resolve the database, update when
the mapping key is cached (truthy), otherwise create and remember the
returned id; every client failure is caught and mapped to changed = false. -/
def upsert_page (client : RemoteClient) (env : List (String × String))
    (mappings : List (String × String)) (event_type : String) (github_id : String)
    (properties : Props) : UpsertResult :=
  let databaseId := ensure_database_id event_type env
  if !optTruthy databaseId then
    { changed := false, notionId := none, mappings := mappings, calls := [] }
  else
    let dbId := databaseId.getD ""
    let mappingKey := make_mapping_key event_type github_id
    let cached := alistGet mappings mappingKey
    if optTruthy cached then
      let nid := cached.getD ""
      let res := client.update nid properties
      { changed := false, notionId := some nid, mappings := mappings,
        calls := [RemoteCall.update nid res] }
    else
      match client.create dbId properties with
      | .ok ridOpt =>
        if optTruthy ridOpt then
          { changed := true, notionId := ridOpt,
            mappings := cacheSet mappings mappingKey (ridOpt.getD ""),
            calls := [RemoteCall.create dbId (.ok ridOpt)] }
        else
          { changed := true, notionId := ridOpt, mappings := mappings,
            calls := [RemoteCall.create dbId (.ok ridOpt)] }
      | .error e =>
        { changed := false, notionId := cached, mappings := mappings,
          calls := [RemoteCall.create dbId (.error e)] }

/-- One serialised member of the identity-cache file. -/
def encPair (p : String × String) : List Char :=
  encString p.1 ++ (':' :: ' ' :: encString p.2)

/-- Members joined by the separator json.dump emits with indent=2. -/
def encPairs : List (String × String) → List Char
  | [] => []
  | [p] => encPair p
  | p :: ps => encPair p ++ (',' :: '\n' :: ' ' :: ' ' :: encPairs ps)

/-- Embeds json.dump(data, ensure_ascii=False, indent=2, sort_keys=True)
for the string-to-string identity-cache mapping. -/
def json_dump_mappings (data : List (String × String)) : String :=
  match sortPairsByKey data with
  | [] => String.mk ['\x7b', '\x7d']
  | ps => String.mk ('\x7b' :: '\n' :: ' ' :: ' ' :: (encPairs ps ++ ['\n', '\x7d']))

/-- JSON whitespace. -/
def isWs (c : Char) : Bool := c == ' ' || c == '\n' || c == '\t' || c == '\r'

/-- Drops leading JSON whitespace. -/
def skipWs : List Char → List Char
  | [] => []
  | c :: cs => if isWs c then skipWs cs else c :: cs

/-- Value of one hex digit, none for other characters. -/
def hexVal (c : Char) : Option Nat :=
  if 48 ≤ c.toNat ∧ c.toNat ≤ 57 then some (c.toNat - 48)
  else if 97 ≤ c.toNat ∧ c.toNat ≤ 102 then some (c.toNat - 87)
  else if 65 ≤ c.toNat ∧ c.toNat ≤ 70 then some (c.toNat - 55)
  else none

/-- Decoding of a single-character JSON escape. -/
def escDecode (e : Char) : Option Char :=
  if e = '"' then some '"'
  else if e = '\\' then some '\\'
  else if e = '/' then some '/'
  else if e = 'n' then some '\n'
  else if e = 't' then some '\t'
  else if e = 'r' then some '\r'
  else if e = 'b' then some (Char.ofNat 8)
  else if e = 'f' then some (Char.ofNat 12)
  else none

/-- Parses the body of a JSON string after the opening quote, returning the
decoded characters and the input following the closing quote. Raw control
characters are rejected, as json.load does in strict mode. -/
def parseStringBody : List Char → Option (List Char × List Char)
  | [] => none
  | c :: cs =>
    if c = '"' then some ([], cs)
    else if c = '\\' then
      match cs with
      | 'u' :: h1 :: h2 :: h3 :: h4 :: cs1 =>
        match hexVal h1, hexVal h2, hexVal h3, hexVal h4 with
        | some a, some b, some c2, some d =>
          (parseStringBody cs1).map
            (fun r => (Char.ofNat (((a * 16 + b) * 16 + c2) * 16 + d) :: r.1, r.2))
        | _, _, _, _ => none
      | e :: cs1 =>
        match escDecode e with
        | some d => (parseStringBody cs1).map (fun r => (d :: r.1, r.2))
        | none => none
      | [] => none
    else if c.toNat < 32 then none
    else (parseStringBody cs).map (fun r => (c :: r.1, r.2))

/-- Parses a JSON string token, skipping leading whitespace. -/
def parseJString (l : List Char) : Option (String × List Char) :=
  match skipWs l with
  | '"' :: cs => (parseStringBody cs).map (fun r => (String.mk r.1, r.2))
  | _ => none

/-- Parses one key-value member of a JSON object of strings. -/
def parsePair (l : List Char) : Option ((String × String) × List Char) :=
  match parseJString l with
  | none => none
  | some (k, l1) =>
    match skipWs l1 with
    | ':' :: l2 =>
      match parseJString l2 with
      | none => none
      | some (v, l3) => some ((k, v), l3)
    | _ => none

/-- Parses the members of a nonempty JSON object of strings up to and
including the closing brace; fuel bounds the number of members. -/
def parseMembersAux : Nat → List Char → Option (List (String × String) × List Char)
  | 0, _ => none
  | fuel + 1, l =>
    match parsePair l with
    | none => none
    | some (p, l1) =>
      match skipWs l1 with
      | ',' :: l2 => (parseMembersAux fuel l2).map (fun r => (p :: r.1, r.2))
      | '\x7d' :: l2 => some ([p], l2)
      | _ => none

/-- Model of json.load specialised to the identity-cache file format: a JSON
object whose values are strings, with nothing but whitespace around it.
Content outside this grammar is modelled as a parse failure. -/
def json_loads_mappings (s : String) : Option (List (String × String)) :=
  match skipWs s.data with
  | '\x7b' :: l1 =>
    (match skipWs l1 with
     | '\x7d' :: l2 => if (skipWs l2).isEmpty then some [] else none
     | l1x =>
       match parseMembersAux (l1x.length + 1) l1x with
       | none => none
       | some (ps, rest) => if (skipWs rest).isEmpty then some ps else none)
  | _ => none

/-- Embeds atomic_write_json over a modelled file system (path to content):
serialise the mapping, write it to the temporary path, then atomically
rename the temporary file over the canonical path. -/
def atomic_write_json (data : List (String × String)) (path tempPath : String)
    (fs : List (String × String)) : List (String × String) :=
  let content := json_dump_mappings data
  let fs1 := cacheSet fs tempPath content
  cacheSet (fs1.filter (fun q => q.1 != tempPath)) path content

/-- Embeds load_mappings: empty cache when the file does not exist, the
parsed content otherwise, and again an empty cache (with a warning) when the
stored content fails to parse. -/
def load_mappings (path : String) (fs : List (String × String)) :
    List (String × String) :=
  match alistGet fs path with
  | none => []
  | some content =>
    match json_loads_mappings content with
    | some m => m
    | none => []

/-- A classified event: the derived kind value and the envelope fields. -/
abbrev ClassifiedEvent := JValue × List (String × JValue)

/-- The derived kind of one envelope: its event_type field when truthy, else
the batch-level default (null when absent). -/
def derivedEventType (fields : List (String × JValue)) (defaultType : Option String) :
    JValue :=
  pyOr (jGet fields "event_type")
    (match defaultType with
     | some s => .str s
     | none => .null)

/-- Classifies the entries of a list payload in order, stopping at the first
entry that is not an object or has no derivable kind, as the loop body of
iter_events does. -/
def classifyEntries (defaultType : Option String) :
    List JValue → Except String (List ClassifiedEvent)
  | [] => .ok []
  | ev :: rest =>
    match ev with
    | .obj fields =>
      let et := derivedEventType fields defaultType
      if jTruthy et then
        match classifyEntries defaultType rest with
        | .ok others => .ok ((et, fields) :: others)
        | .error msg => .error msg
      else .error "Event type missing for one of the payload entries"
    | _ => .error "Each event entry must be an object"

/-- Embeds iter_events as main observes it through list(iter_events(..)):
the classified batch, or the first ValueError raised while classifying. -/
def iter_events (payload : JValue) (defaultType : Option String) :
    Except String (List ClassifiedEvent) :=
  match payload with
  | .arr events => classifyEntries defaultType events
  | .obj fields =>
    let et := derivedEventType fields defaultType
    if jTruthy et then Except.ok [(et, fields)]
    else Except.error "Event type is required when it cannot be inferred from payload"
  | _ => Except.error "Payload must be a JSON object or an array of objects"

/-- Spec-level validation condition of the classifier: the payload is neither
an object nor an array, or some array entry is not an object, or some
envelope has no derivable kind (no truthy event_type and no usable default). -/
def payloadInvalid (payload : JValue) (defaultType : Option String) : Bool :=
  match payload with
  | .arr events =>
    events.any (fun ev =>
      match ev with
      | .obj fields => !jTruthy (derivedEventType fields defaultType)
      | _ => true)
  | .obj fields => !jTruthy (derivedEventType fields defaultType)
  | _ => true

/-- Result of one handler invocation: the cache as the handler left it, the
outcome (.error models an exception escaping the handler), and the remote
calls the handler made. -/
structure HandlerResult where
  mappings : List (String × String)
  outcome : Except Unit Bool
  calls : List RemoteCall

/-- A per-kind event handler as invoked by dispatch_events. -/
abbrev Handler := List (String × JValue) → List (String × String) → HandlerResult

/-- EVENT_HANDLERS lookup; dict.get with a non-string key returns None. -/
def lookupHandler (table : List (String × Handler)) (kind : JValue) : Option Handler :=
  match kind with
  | .str s => alistGet table s
  | _ => none

/-- State threaded through the dispatch loop: in-memory cache, file system,
accumulated remote calls, and the kinds dispatched to a handler. -/
structure DispatchState where
  mappings : List (String × String)
  fs : List (String × String)
  calls : List RemoteCall
  handled : List JValue

/-- Embeds one iteration of the dispatch_events loop: skip when no handler
is registered; otherwise invoke the handler, persist the cache after a
mutating call, and catch any exception at the per-event boundary. -/
def dispatch_step (table : List (String × Handler)) (path tempPath : String)
    (st : DispatchState) (ev : ClassifiedEvent) : DispatchState :=
  match lookupHandler table ev.1 with
  | none => st
  | some h =>
    let r := h ev.2 st.mappings
    match r.outcome with
    | .ok changed =>
      { mappings := r.mappings,
        fs := if changed then atomic_write_json r.mappings path tempPath st.fs else st.fs,
        calls := st.calls ++ r.calls,
        handled := st.handled ++ [ev.1] }
    | .error _ =>
      { mappings := r.mappings, fs := st.fs, calls := st.calls ++ r.calls,
        handled := st.handled ++ [ev.1] }

/-- Embeds dispatch_events as a left fold of dispatch_step over the batch. -/
def dispatch_events (table : List (String × Handler)) (path tempPath : String)
    (events : List ClassifiedEvent) (st : DispatchState) : DispatchState :=
  events.foldl (dispatch_step table path tempPath) st

/-- The kinds of the batch events that have a registered handler, in order. -/
def handledKinds (table : List (String × Handler)) (events : List ClassifiedEvent) :
    List JValue :=
  (events.filter (fun ev => (lookupHandler table ev.1).isSome)).map (fun ev => ev.1)

/-- Recognises the create calls in a remote-call trace. -/
def isCreateCall : RemoteCall → Bool
  | .create _ _ => true
  | .update _ _ => false

/-- Number of remote create calls in a trace. -/
def countCreates (calls : List RemoteCall) : Nat :=
  (calls.filter isCreateCall).length

/-- Embeds main after argument parsing: a missing token, an unreadable
payload or a classification error exits with code 1 before any dispatch;
otherwise the cache is loaded and the whole batch dispatched, exiting 0.
Returns the exit code and the remote calls made. -/
def main_sim (table : List (String × Handler)) (path tempPath : String)
    (token : Option String) (payload : Option JValue) (defaultType : Option String)
    (fs : List (String × String)) : Nat × List RemoteCall :=
  if !optTruthy token then (1, [])
  else
    match payload with
    | none => (1, [])
    | some p =>
      match iter_events p defaultType with
      | .error _ => (1, [])
      | .ok events =>
        let st := dispatch_events table path tempPath events
          { mappings := load_mappings path fs, fs := fs, calls := [], handled := [] }
        (0, st.calls)

/-- Test fixture: a client whose create always succeeds with id page-1 and
whose update always succeeds. -/
def fixtureClientOk : RemoteClient :=
  { create := fun _ _ => Except.ok (some "page-1"),
    update := fun _ _ => Except.ok () }

/-- Test fixture: a client whose every remote call raises. -/
def fixtureClientFail : RemoteClient :=
  { create := fun _ _ => Except.error (),
    update := fun _ _ => Except.error () }

/-- Test fixture: an environment providing only the default database id. -/
def fixtureEnv : List (String × String) :=
  [("NOTION_DEFAULT_DATABASE_ID", "db-1")]

/-- Test fixture: a handler that raises immediately, leaving the cache
untouched and making no remote call. -/
def fixtureRaisingHandler : Handler :=
  fun _ maps => { mappings := maps, outcome := Except.error (), calls := [] }

/-- Test fixture: a handler that records one created page in the cache. -/
def fixtureOkHandler : Handler :=
  fun _ maps =>
    { mappings := maps ++ [("issues:9", "page-9")], outcome := Except.ok true, calls := [] }

/-- Test fixture: a handler table with one normal and one raising handler. -/
def fixtureTable : List (String × Handler) :=
  [("issues", fixtureOkHandler), ("bad", fixtureRaisingHandler)]

theorem ne_null_of_jTruthy {v : JValue} (h : jTruthy v = true) : v ≠ JValue.null := by
  cases v <;> simp_all [jTruthy]

theorem find?_ite_singleton_ne (key k : String) (v : PropValue) (c : Bool)
    (hk : (k == key) = false) :
    List.find? (fun p => p.1 == key) (if c then [(k, v)] else []) = none := by
  cases c <;> simp [List.find?, hk]

/-- Claim C3 counterexample: an entity whose node_id is present but the empty
string. The or-chain returns null although a non-null value is present among
the four fields, refuting the first-non-null reading at this input. -/
theorem C3_counterexample :
    entity_identifier [("node_id", JValue.str "")] = JValue.null ∧
    entity_identifier_claimed [("node_id", JValue.str "")] = JValue.str "" ∧
    JValue.str "" ≠ JValue.null := by
  refine ⟨rfl, rfl, fun h => JValue.noConfusion h⟩

/-- Claim C3 amended: for every entity, entity_identifier returns the first
Python-truthy value in priority order node_id, id, number, name (falling back
to the name field value when all are falsy), and it returns none exactly when
node_id, id and number are falsy and name is null. -/
theorem C3_entity_identifier_first_truthy (entity : List (String × JValue)) :
    entity_identifier entity =
      firstTruthyOrLast
        [jGet entity "node_id", jGet entity "id", jGet entity "number",
         jGet entity "name"] ∧
    (entity_identifier entity = JValue.null ↔
      (jTruthy (jGet entity "node_id") = false ∧ jTruthy (jGet entity "id") = false ∧
       jTruthy (jGet entity "number") = false ∧ jGet entity "name" = JValue.null)) := by
  have hchain : entity_identifier entity =
      firstTruthyOrLast
        [jGet entity "node_id", jGet entity "id", jGet entity "number",
         jGet entity "name"] := by
    simp [entity_identifier, firstTruthyOrLast, pyOr]
  refine ⟨hchain, ?_, ?_⟩
  · intro h0
    rw [hchain] at h0
    by_cases h1 : jTruthy (jGet entity "node_id") = true
    · simp [firstTruthyOrLast, h1] at h0
      rw [h0] at h1
      simp [jTruthy] at h1
    · rw [Bool.not_eq_true] at h1
      by_cases h2 : jTruthy (jGet entity "id") = true
      · simp [firstTruthyOrLast, h1, h2] at h0
        rw [h0] at h2
        simp [jTruthy] at h2
      · rw [Bool.not_eq_true] at h2
        by_cases h3 : jTruthy (jGet entity "number") = true
        · simp [firstTruthyOrLast, h1, h2, h3] at h0
          rw [h0] at h3
          simp [jTruthy] at h3
        · rw [Bool.not_eq_true] at h3
          simp [firstTruthyOrLast, h1, h2, h3] at h0
          exact ⟨h1, h2, h3, h0⟩
  · rintro ⟨h1, h2, h3, h4⟩
    rw [hchain]
    simp [firstTruthyOrLast, h1, h2, h3, h4]

/-- Claim C4: every string fed to a rich-text field is passed through
unchanged when its length is at most 1900 characters, and otherwise is
truncated to its first 1897 characters plus a trailing ellipsis marker,
giving exactly 1900 characters. -/
theorem C4_notion_rich_text_truncation (s : String) :
    (s.length ≤ 1900 → notion_rich_text s = [{ type := "text", content := s }]) ∧
    (s.length > 1900 →
      notion_rich_text s =
        [{ type := "text", content := String.mk (s.data.take 1897) ++ "..." }] ∧
      (String.mk (s.data.take 1897) ++ "...").data = s.data.take 1897 ++ ['.', '.', '.'] ∧
      (String.mk (s.data.take 1897) ++ "...").length = 1900) := by
  constructor
  · intro h
    have hc : ¬ (s.length > 1900) := by omega
    simp [notion_rich_text, hc]
  · intro h
    refine ⟨by simp [notion_rich_text, h], rfl, ?_⟩
    have hdata : (String.mk (s.data.take 1897) ++ "...").length
        = (s.data.take 1897 ++ ['.', '.', '.']).length := rfl
    have hlen : s.data.length > 1900 := h
    rw [hdata]
    simp [List.length_append, List.length_take]
    omega

/-- Claim C2 counterexample: with a present-but-empty state value the built
property set contains no State property at all, refuting the claim that it is
included with the normalized value Unknown. -/
theorem C2_counterexample :
    alistGet (build_common_properties "Bug" none (some "") none none none none) "State"
      = none := by rfl

/-- Claim C2 amended: for every built property set, the State property is
included, carrying the title-cased state value, exactly when the source state
is Python-truthy; a falsy state (absent or present-but-empty) yields no State
property, the Unknown branch in the source being unreachable. -/
theorem C2_state_property (title : String) (url state updated_at : Option String)
    (metadata : Option (List (String × JValue)))
    (type_name : Option String) (number : Option Int) :
    alistGet
        (build_common_properties title url state updated_at metadata type_name number)
        "State" =
      (if optTruthy state then some (PropValue.select (pyTitle (state.getD ""))) else none) := by
  cases hos : optTruthy state <;> rcases metadata with _ | md <;> rcases number with _ | n <;>
    simp [build_common_properties, alistGet, List.find?_append, find?_ite_singleton_ne, hos]


theorem alistGet_overwrite (c : List (String × String)) (key v : String)
    (h : c.any (fun p => p.1 == key) = true) :
    alistGet (c.map (fun p => if p.1 == key then (p.1, v) else p)) key = some v := by
  induction c with
  | nil => simp at h
  | cons p ps ih =>
    by_cases hp : (p.1 == key) = true
    · simp only [List.map_cons, alistGet, if_pos hp]
      rw [@List.find?_cons_of_pos _ (fun q => q.1 == key) (p.1, v)
        (List.map (fun q => if q.1 == key then (q.1, v) else q) ps) hp]
      rfl
    · have hx : ps.any (fun q => q.1 == key) = true := by
        have hpf : (p.1 == key) = false := by rwa [Bool.not_eq_true] at hp
        simpa [List.any_cons, hpf] using h
      simp only [List.map_cons, alistGet, if_neg hp]
      rw [@List.find?_cons_of_neg _ (fun q => q.1 == key) p
        (List.map (fun q => if q.1 == key then (q.1, v) else q) ps) hp]
      simpa only [alistGet] using ih hx

theorem alistGet_cacheSet_self (c : List (String × String)) (key v : String) :
    alistGet (cacheSet c key v) key = some v := by
  unfold cacheSet
  by_cases h : c.any (fun p => p.1 == key) = true
  · rw [if_pos h]
    exact alistGet_overwrite c key v h
  · rw [if_neg h]
    rw [Bool.not_eq_true] at h
    have hnone : c.find? (fun p => p.1 == key) = none := by
      rw [List.find?_eq_none]
      intro x hx
      exact (List.any_eq_false.mp h) x hx
    simp [alistGet, List.find?_append, hnone]

theorem any_eq_false_of_alistGet_none (c : List (String × String)) (key : String)
    (h : alistGet c key = none) : c.any (fun p => p.1 == key) = false := by
  unfold alistGet at h
  cases hf : c.find? (fun p => p.1 == key) with
  | none =>
    rw [List.any_eq_false]
    intro x hx
    exact (List.find?_eq_none.mp hf) x hx
  | some pr =>
    rw [hf] at h
    simp at h

theorem cacheSet_append_of_none (c : List (String × String)) (key v : String)
    (h : alistGet c key = none) : cacheSet c key v = c ++ [(key, v)] := by
  unfold cacheSet
  rw [any_eq_false_of_alistGet_none c key h]
  simp

theorem alistGet_append_left (c t : List (String × String)) (k : String) (v : String)
    (h : alistGet c k = some v) : alistGet (c ++ t) k = some v := by
  unfold alistGet at h ⊢
  cases hf : c.find? (fun p => p.1 == k) with
  | none => rw [hf] at h; simp at h
  | some pr =>
    rw [hf] at h
    simp [List.find?_append, hf, h]

theorem alistGet_none_of_falsy (c : List (String × String)) (k : String)
    (hwf : ∀ p ∈ c, p.2 ≠ "")
    (h : optTruthy (alistGet c k) = false) : alistGet c k = none := by
  cases hg : alistGet c k with
  | none => rfl
  | some s =>
    rw [hg] at h
    have hs : s = "" := by simpa [optTruthy] using h
    unfold alistGet at hg
    cases hf : c.find? (fun p => p.1 == k) with
    | none => rw [hf] at hg; simp at hg
    | some pr =>
      rw [hf] at hg
      simp at hg
      have hmem := List.mem_of_find?_eq_some hf
      have hval := hwf pr hmem
      rw [hg, hs] at hval
      exact absurd rfl hval

/-- Claim C1: for a routable event kind whose cache key is not yet cached and
whose create succeeds with a non-empty id, dispatching the same event twice
makes exactly one remote create (on the first call, whose returned id is
stored in the cache) and one update against that same cached id on the second
call, which returns (false, existing id) and leaves the cache unchanged. -/
theorem C1_upsert_idempotent (client : RemoteClient)
    (env mappings : List (String × String)) (event_type github_id : String)
    (properties : Props) (rid : String)
    (hroute : optTruthy (ensure_database_id event_type env) = true)
    (hfresh : optTruthy (alistGet mappings (make_mapping_key event_type github_id)) = false)
    (hcreate : client.create ((ensure_database_id event_type env).getD "") properties
        = Except.ok (some rid))
    (hrid : rid ≠ "") :
    upsert_page client env mappings event_type github_id properties =
      { changed := true, notionId := some rid,
        mappings := cacheSet mappings (make_mapping_key event_type github_id) rid,
        calls := [RemoteCall.create ((ensure_database_id event_type env).getD "")
          (Except.ok (some rid))] } ∧
    alistGet (cacheSet mappings (make_mapping_key event_type github_id) rid)
        (make_mapping_key event_type github_id) = some rid ∧
    upsert_page client env
        (cacheSet mappings (make_mapping_key event_type github_id) rid)
        event_type github_id properties =
      { changed := false, notionId := some rid,
        mappings := cacheSet mappings (make_mapping_key event_type github_id) rid,
        calls := [RemoteCall.update rid (client.update rid properties)] } ∧
    countCreates
        ((upsert_page client env mappings event_type github_id properties).calls ++
          (upsert_page client env
            (cacheSet mappings (make_mapping_key event_type github_id) rid)
            event_type github_id properties).calls) = 1 := by
  have hopt : optTruthy (some rid) = true := by simp [optTruthy, hrid]
  have h2 := alistGet_cacheSet_self mappings (make_mapping_key event_type github_id) rid
  have h1 : upsert_page client env mappings event_type github_id properties =
      { changed := true, notionId := some rid,
        mappings := cacheSet mappings (make_mapping_key event_type github_id) rid,
        calls := [RemoteCall.create ((ensure_database_id event_type env).getD "")
          (Except.ok (some rid))] } := by
    simp [upsert_page, hroute, hfresh, hcreate, hopt]
  have h3 : upsert_page client env
      (cacheSet mappings (make_mapping_key event_type github_id) rid)
      event_type github_id properties =
      { changed := false, notionId := some rid,
        mappings := cacheSet mappings (make_mapping_key event_type github_id) rid,
        calls := [RemoteCall.update rid (client.update rid properties)] } := by
    simp [upsert_page, hroute, h2, hopt]
  refine ⟨h1, h2, h3, ?_⟩
  rw [h1, h3]
  simp [countCreates, isCreateCall]

/-- Claim C8: any failure raised by the remote create or update call made by
upsert_page is caught rather than propagated: the call returns with
changed = false, and a failed create adds no entry to the identity cache. -/
theorem C8_upsert_failure_caught (client : RemoteClient)
    (env mappings : List (String × String)) (event_type github_id : String)
    (properties : Props)
    (hroute : optTruthy (ensure_database_id event_type env) = true) :
    (optTruthy (alistGet mappings (make_mapping_key event_type github_id)) = false →
      client.create ((ensure_database_id event_type env).getD "") properties
          = Except.error () →
      (upsert_page client env mappings event_type github_id properties).changed = false ∧
      (upsert_page client env mappings event_type github_id properties).mappings
        = mappings) ∧
    (optTruthy (alistGet mappings (make_mapping_key event_type github_id)) = true →
      client.update ((alistGet mappings (make_mapping_key event_type github_id)).getD "")
          properties = Except.error () →
      (upsert_page client env mappings event_type github_id properties).changed = false ∧
      (upsert_page client env mappings event_type github_id properties).mappings
        = mappings) := by
  constructor
  · intro hfresh hcreate
    constructor <;> simp [upsert_page, hroute, hfresh, hcreate]
  · intro hcached hupdate
    constructor <;> simp [upsert_page, hroute, hcached]

/-- Claim C10: every upsert_page call preserves the identity-cache invariant:
entries existing before the call keep their exact values, at most one new key
is appended per call, and a new entry is added only with a non-empty id just
returned by the successful remote create call that upsert made. -/
theorem C10_cache_invariant (client : RemoteClient)
    (env mappings : List (String × String)) (event_type github_id : String)
    (properties : Props)
    (hwf : ∀ p ∈ mappings, p.2 ≠ "") :
    (∀ k v, alistGet mappings k = some v →
      alistGet (upsert_page client env mappings event_type github_id properties).mappings k
        = some v) ∧
    ((upsert_page client env mappings event_type github_id properties).mappings
        = mappings ∨
      ∃ rid, rid ≠ "" ∧
        alistGet mappings (make_mapping_key event_type github_id) = none ∧
        client.create ((ensure_database_id event_type env).getD "") properties
          = Except.ok (some rid) ∧
        (upsert_page client env mappings event_type github_id properties).mappings
          = mappings ++ [(make_mapping_key event_type github_id, rid)]) ∧
    (upsert_page client env mappings event_type github_id properties).mappings.length
      ≤ mappings.length + 1 := by
  by_cases hdb : optTruthy (ensure_database_id event_type env) = true
  · by_cases hc : optTruthy (alistGet mappings (make_mapping_key event_type github_id)) = true
    · refine ⟨fun k v h => ?_, Or.inl ?_, ?_⟩
      · simpa [upsert_page, hdb, hc] using h
      · simp [upsert_page, hdb, hc]
      · simp [upsert_page, hdb, hc]
    · rw [Bool.not_eq_true] at hc
      have hnone := alistGet_none_of_falsy mappings _ hwf hc
      cases hcr : client.create ((ensure_database_id event_type env).getD "") properties with
      | error e =>
        refine ⟨fun k v h => ?_, Or.inl ?_, ?_⟩
        · simpa [upsert_page, hdb, hc, hcr] using h
        · simp [upsert_page, hdb, hc, hcr]
        · simp [upsert_page, hdb, hc, hcr]
      | ok ridOpt =>
        by_cases hro : optTruthy ridOpt = true
        · rcases ridOpt with _ | rid
          · simp [optTruthy] at hro
          · have hrid : rid ≠ "" := by simpa [optTruthy] using hro
            have happ := cacheSet_append_of_none mappings
              (make_mapping_key event_type github_id) rid hnone
            have hm : (upsert_page client env mappings event_type github_id
                properties).mappings
                = mappings ++ [(make_mapping_key event_type github_id, rid)] := by
              rw [← happ]
              simp [upsert_page, hdb, hc, hcr, hro]
            refine ⟨fun k v h => ?_, Or.inr ⟨rid, hrid, hnone, rfl, hm⟩, ?_⟩
            · rw [hm]
              exact alistGet_append_left _ _ _ _ h
            · rw [hm]
              simp
        · rw [Bool.not_eq_true] at hro
          refine ⟨fun k v h => ?_, Or.inl ?_, ?_⟩
          · simpa [upsert_page, hdb, hc, hcr, hro] using h
          · simp [upsert_page, hdb, hc, hcr, hro]
          · simp [upsert_page, hdb, hc, hcr, hro]
  · rw [Bool.not_eq_true] at hdb
    refine ⟨fun k v h => ?_, Or.inl ?_, ?_⟩
    · simpa [upsert_page, hdb] using h
    · simp [upsert_page, hdb]
    · simp [upsert_page, hdb]


/-- Witness for Claim C4 at a 1901-character string (truncated) and at a
short string (unchanged). -/
theorem C4_witness :
    (String.mk (List.replicate 1901 'a')).length > 1900 ∧
    notion_rich_text (String.mk (List.replicate 1901 'a')) =
      [{ type := "text",
         content := String.mk ((String.mk (List.replicate 1901 'a')).data.take 1897)
           ++ "..." }] ∧
    ("abc" : String).length ≤ 1900 ∧
    notion_rich_text "abc" = [{ type := "text", content := "abc" }] := by
  have hlong : (String.mk (List.replicate 1901 'a')).length > 1900 := by
    rw [String.length_mk, List.length_replicate]
    omega
  have hshort : ("abc" : String).length ≤ 1900 := by decide
  exact ⟨hlong, ((C4_notion_rich_text_truncation _).2 hlong).1, hshort,
    (C4_notion_rich_text_truncation "abc").1 hshort⟩

/-- Witness for Claim C1 at a concrete routable event with a fresh cache and
a client whose create returns id page-1. -/
theorem C1_witness :
    optTruthy (ensure_database_id "issues" fixtureEnv) = true ∧
    optTruthy (alistGet [] (make_mapping_key "issues" "1")) = false ∧
    fixtureClientOk.create ((ensure_database_id "issues" fixtureEnv).getD "") []
      = Except.ok (some "page-1") ∧
    ("page-1" : String) ≠ "" ∧
    (upsert_page fixtureClientOk fixtureEnv [] "issues" "1" [] =
      { changed := true, notionId := some "page-1",
        mappings := cacheSet [] (make_mapping_key "issues" "1") "page-1",
        calls := [RemoteCall.create ((ensure_database_id "issues" fixtureEnv).getD "")
          (Except.ok (some "page-1"))] } ∧
      alistGet (cacheSet [] (make_mapping_key "issues" "1") "page-1")
        (make_mapping_key "issues" "1") = some "page-1" ∧
      upsert_page fixtureClientOk fixtureEnv
          (cacheSet [] (make_mapping_key "issues" "1") "page-1") "issues" "1" [] =
        { changed := false, notionId := some "page-1",
          mappings := cacheSet [] (make_mapping_key "issues" "1") "page-1",
          calls := [RemoteCall.update "page-1" (fixtureClientOk.update "page-1" [])] } ∧
      countCreates
        ((upsert_page fixtureClientOk fixtureEnv [] "issues" "1" []).calls ++
          (upsert_page fixtureClientOk fixtureEnv
            (cacheSet [] (make_mapping_key "issues" "1") "page-1") "issues" "1" []).calls)
        = 1) := by
  refine ⟨by rfl, by rfl, by rfl, by decide, ?_⟩
  exact C1_upsert_idempotent fixtureClientOk fixtureEnv [] "issues" "1" [] "page-1"
    (by rfl) (by rfl) (by rfl) (by decide)

/-- Witness for Claim C8 at a concrete routable event whose create raises. -/
theorem C8_witness :
    optTruthy (ensure_database_id "issues" fixtureEnv) = true ∧
    optTruthy (alistGet [] (make_mapping_key "issues" "1")) = false ∧
    fixtureClientFail.create ((ensure_database_id "issues" fixtureEnv).getD "") []
      = Except.error () ∧
    (upsert_page fixtureClientFail fixtureEnv [] "issues" "1" []).changed = false ∧
    (upsert_page fixtureClientFail fixtureEnv [] "issues" "1" []).mappings = [] := by
  refine ⟨by rfl, by rfl, by rfl, ?_, ?_⟩
  · exact ((C8_upsert_failure_caught fixtureClientFail fixtureEnv [] "issues" "1" []
      (by rfl)).1 (by rfl) (by rfl)).1
  · exact ((C8_upsert_failure_caught fixtureClientFail fixtureEnv [] "issues" "1" []
      (by rfl)).1 (by rfl) (by rfl)).2

/-- Witness for Claim C10 starting from a one-entry cache: the old entry
survives and the cache grows by at most one entry. -/
theorem C10_witness :
    alistGet (upsert_page fixtureClientOk fixtureEnv [("issues:0", "page-0")]
        "issues" "1" []).mappings "issues:0" = some "page-0" ∧
    (upsert_page fixtureClientOk fixtureEnv [("issues:0", "page-0")]
        "issues" "1" []).mappings.length ≤ [("issues:0", "page-0")].length + 1 := by
  have h := C10_cache_invariant fixtureClientOk fixtureEnv [("issues:0", "page-0")]
    "issues" "1" [] (by decide)
  exact ⟨h.1 "issues:0" "page-0" (by rfl), h.2.2⟩


theorem classifyEntries_isOk (d : Option String) (events : List JValue) :
    (classifyEntries d events).isOk =
      !(events.any (fun ev =>
        match ev with
        | .obj fields => !jTruthy (derivedEventType fields d)
        | _ => true)) := by
  induction events with
  | nil => rfl
  | cons ev rest ih =>
    cases ev with
    | obj fields =>
      by_cases het : jTruthy (derivedEventType fields d) = true
      · cases hrest : classifyEntries d rest with
        | ok others =>
          rw [hrest] at ih
          simp only [classifyEntries, het, if_true, hrest, List.any_cons]
          simp only [Except.isOk, Except.toBool] at ih ⊢
          simp [het, ← ih]
        | error m =>
          rw [hrest] at ih
          simp only [classifyEntries, het, if_true, hrest, List.any_cons]
          simp only [Except.isOk, Except.toBool] at ih ⊢
          simp [het, ← ih]
      · have hetf : jTruthy (derivedEventType fields d) = false := by
          rwa [Bool.not_eq_true] at het
        simp [classifyEntries, hetf, List.any_cons, Except.isOk, Except.toBool]
    | null => simp [classifyEntries, List.any_cons, Except.isOk, Except.toBool]
    | bool b => simp [classifyEntries, List.any_cons, Except.isOk, Except.toBool]
    | num n => simp [classifyEntries, List.any_cons, Except.isOk, Except.toBool]
    | str t => simp [classifyEntries, List.any_cons, Except.isOk, Except.toBool]
    | arr items => simp [classifyEntries, List.any_cons, Except.isOk, Except.toBool]

/-- Claim C7: event classification fails with a validation error exactly when
the payload is neither an object nor an array, or some array entry is not an
object, or some envelope has no derivable kind (no truthy event_type field
and no batch default); on such payloads main exits 1 with zero remote calls,
whatever the handler table. -/
theorem C7_validation (payload : JValue) (defaultType : Option String) :
    ((∃ msg, iter_events payload defaultType = Except.error msg) ↔
      payloadInvalid payload defaultType = true) ∧
    (∀ table path tempPath token fs,
      payloadInvalid payload defaultType = true →
      main_sim table path tempPath token (some payload) defaultType fs = (1, [])) := by
  have hiff : (∃ msg, iter_events payload defaultType = Except.error msg) ↔
      payloadInvalid payload defaultType = true := by
    cases payload with
    | arr events =>
      simp only [iter_events, payloadInvalid]
      constructor
      · rintro ⟨msg, hm⟩
        have hok := classifyEntries_isOk defaultType events
        rw [hm] at hok
        simp only [Except.isOk, Except.toBool] at hok
        cases hany : events.any (fun ev =>
            match ev with
            | .obj fields => !jTruthy (derivedEventType fields defaultType)
            | _ => true)
        · rw [hany] at hok; simp at hok
        · rfl
      · intro hany
        have hok := classifyEntries_isOk defaultType events
        rw [hany] at hok
        cases hc : classifyEntries defaultType events with
        | ok o => rw [hc] at hok; simp [Except.isOk, Except.toBool] at hok
        | error m => exact ⟨m, rfl⟩
    | obj fields =>
      by_cases het : jTruthy (derivedEventType fields defaultType) = true
      · simp [iter_events, payloadInvalid, het]
      · have hetf : jTruthy (derivedEventType fields defaultType) = false := by
          rwa [Bool.not_eq_true] at het
        simp [iter_events, payloadInvalid, hetf]
    | null => simp [iter_events, payloadInvalid]
    | bool b => simp [iter_events, payloadInvalid]
    | num n => simp [iter_events, payloadInvalid]
    | str t => simp [iter_events, payloadInvalid]
  refine ⟨hiff, ?_⟩
  intro table path tempPath token fs hinv
  rcases hiff.mpr hinv with ⟨msg, hmsg⟩
  by_cases htok : optTruthy token = true
  · simp [main_sim, htok, hmsg]
  · have htokf : optTruthy token = false := by rwa [Bool.not_eq_true] at htok
    simp [main_sim, htokf]

theorem dispatch_events_handled (table : List (String × Handler)) (path tempPath : String)
    (events : List ClassifiedEvent) :
    ∀ s0 : DispatchState,
      (dispatch_events table path tempPath events s0).handled
        = s0.handled ++ handledKinds table events := by
  induction events with
  | nil =>
    intro s0
    simp [dispatch_events, handledKinds]
  | cons e es ih =>
    intro s0
    have hstep : dispatch_events table path tempPath (e :: es) s0
        = dispatch_events table path tempPath es (dispatch_step table path tempPath s0 e) :=
      rfl
    rw [hstep, ih]
    cases hl : lookupHandler table e.1 with
    | none =>
      simp [dispatch_step, hl, handledKinds, List.filter_cons]
    | some h =>
      cases ho : (h e.2 s0.mappings).outcome with
      | ok changed =>
        simp [dispatch_step, hl, ho, handledKinds, List.filter_cons, List.append_assoc]
      | error u =>
        simp [dispatch_step, hl, ho, handledKinds, List.filter_cons, List.append_assoc]

theorem dispatch_events_congr (table : List (String × Handler)) (path tempPath : String)
    (events : List ClassifiedEvent) :
    ∀ s1 s2 : DispatchState, s1.mappings = s2.mappings → s1.fs = s2.fs →
      (dispatch_events table path tempPath events s1).mappings
        = (dispatch_events table path tempPath events s2).mappings ∧
      (dispatch_events table path tempPath events s1).fs
        = (dispatch_events table path tempPath events s2).fs := by
  induction events with
  | nil =>
    intro s1 s2 hm hf
    exact ⟨hm, hf⟩
  | cons e es ih =>
    intro s1 s2 hm hf
    have h1 : dispatch_events table path tempPath (e :: es) s1
        = dispatch_events table path tempPath es (dispatch_step table path tempPath s1 e) :=
      rfl
    have h2 : dispatch_events table path tempPath (e :: es) s2
        = dispatch_events table path tempPath es (dispatch_step table path tempPath s2 e) :=
      rfl
    rw [h1, h2]
    have hstep : (dispatch_step table path tempPath s1 e).mappings
          = (dispatch_step table path tempPath s2 e).mappings ∧
        (dispatch_step table path tempPath s1 e).fs
          = (dispatch_step table path tempPath s2 e).fs := by
      cases hl : lookupHandler table e.1 with
      | none => simp [dispatch_step, hl, hm, hf]
      | some h =>
        simp only [dispatch_step, hl, hm, hf]
        cases (h e.2 s2.mappings).outcome <;> simp
    exact ih _ _ hstep.1 hstep.2

/-- Claim C9: dispatch is resilient per event: every event of the batch whose
kind has a registered handler is dispatched to it, in arrival order,
regardless of other events raising; and when one event leaves the cache and
file system unchanged — as when its handler raises before mutating, or it
has no handler — the cache and file system after the batch equal those of the
batch with that event removed, so the other N-1 events' effects all land. -/
theorem C9_dispatch_resilient (table : List (String × Handler)) (path tempPath : String)
    (pre post : List ClassifiedEvent) (ev : ClassifiedEvent) (st : DispatchState)
    (hstep : ∀ s : DispatchState,
      (dispatch_step table path tempPath s ev).mappings = s.mappings ∧
      (dispatch_step table path tempPath s ev).fs = s.fs) :
    (∀ events : List ClassifiedEvent, ∀ s0 : DispatchState,
      (dispatch_events table path tempPath events s0).handled
        = s0.handled ++ handledKinds table events) ∧
    (dispatch_events table path tempPath (pre ++ ev :: post) st).mappings
      = (dispatch_events table path tempPath (pre ++ post) st).mappings ∧
    (dispatch_events table path tempPath (pre ++ ev :: post) st).fs
      = (dispatch_events table path tempPath (pre ++ post) st).fs := by
  refine ⟨fun events s0 => dispatch_events_handled table path tempPath events s0, ?_⟩
  have hsplit1 : dispatch_events table path tempPath (pre ++ ev :: post) st
      = dispatch_events table path tempPath post
          (dispatch_step table path tempPath
            (dispatch_events table path tempPath pre st) ev) := by
    simp [dispatch_events, List.foldl_append]
  have hsplit2 : dispatch_events table path tempPath (pre ++ post) st
      = dispatch_events table path tempPath post
          (dispatch_events table path tempPath pre st) := by
    simp [dispatch_events, List.foldl_append]
  rw [hsplit1, hsplit2]
  exact dispatch_events_congr table path tempPath post _ _
    (hstep (dispatch_events table path tempPath pre st)).1
    (hstep (dispatch_events table path tempPath pre st)).2


/-- Witness for Claim C7: an input array whose one entry lacks event_type,
with no default supplied, fails validation and main makes zero remote calls. -/
theorem C7_witness :
    payloadInvalid (JValue.arr [JValue.obj []]) none = true ∧
    (∃ msg, iter_events (JValue.arr [JValue.obj []]) none = Except.error msg) ∧
    main_sim fixtureTable "cache.json" "cache.tmp" (some "token")
      (some (JValue.arr [JValue.obj []])) none [] = (1, []) := by
  have h := C7_validation (JValue.arr [JValue.obj []]) none
  exact ⟨by rfl, h.1.mpr (by rfl),
    h.2 fixtureTable "cache.json" "cache.tmp" (some "token") [] (by rfl)⟩

/-- Witness for Claim C9: a two-event batch whose second handler raises still
dispatches both events, and the cache equals that of the batch without the
raising event. -/
theorem C9_witness :
    (dispatch_events fixtureTable "cache.json" "cache.tmp"
        [(JValue.str "issues", []), (JValue.str "bad", [])]
        { mappings := [], fs := [], calls := [], handled := [] }).handled
      = [JValue.str "issues", JValue.str "bad"] ∧
    (dispatch_events fixtureTable "cache.json" "cache.tmp"
        [(JValue.str "issues", []), (JValue.str "bad", [])]
        { mappings := [], fs := [], calls := [], handled := [] }).mappings
      = (dispatch_events fixtureTable "cache.json" "cache.tmp"
          [(JValue.str "issues", [])]
          { mappings := [], fs := [], calls := [], handled := [] }).mappings ∧
    (dispatch_events fixtureTable "cache.json" "cache.tmp"
        [(JValue.str "issues", []), (JValue.str "bad", [])]
        { mappings := [], fs := [], calls := [], handled := [] }).mappings
      = [("issues:9", "page-9")] := by
  have h := C9_dispatch_resilient fixtureTable "cache.json" "cache.tmp"
    [(JValue.str "issues", ([] : List (String × JValue)))] [] (JValue.str "bad", [])
    { mappings := [], fs := [], calls := [], handled := [] }
    (fun s => ⟨rfl, rfl⟩)
  have h1 := h.1 [(JValue.str "issues", []), (JValue.str "bad", [])]
    { mappings := [], fs := [], calls := [], handled := [] }
  refine ⟨?_, h.2.1, by rfl⟩
  rw [h1]
  rfl


theorem mk_data (s : String) : String.mk s.data = s := rfl

theorem hexVal_hexDigitChar (n : Nat) (h : n < 16) : hexVal (hexDigitChar n) = some n := by
  interval_cases n <;> rfl

theorem skipWs_not_ws (c : Char) (l : List Char) (h : isWs c = false) :
    skipWs (c :: l) = c :: l := by
  simp [skipWs, h]

theorem parseStringBody_encChar (c : Char) (t : List Char) :
    parseStringBody (encChar c ++ t)
      = (parseStringBody t).map (fun r => (c :: r.1, r.2)) := by
  by_cases h1 : c = '"'
  · subst h1; rfl
  · by_cases h2 : c = '\\'
    · subst h2; rfl
    · by_cases h3 : c = '\n'
      · subst h3; rfl
      · by_cases h4 : c = '\t'
        · subst h4; rfl
        · by_cases h5 : c = '\r'
          · subst h5; rfl
          · by_cases h6 : c = Char.ofNat 8
            · subst h6; rfl
            · by_cases h7 : c = Char.ofNat 12
              · subst h7; rfl
              · by_cases h8 : c.toNat < 32
                · have hd1 : c.toNat / 16 < 16 := by omega
                  have hd2 : c.toNat % 16 < 16 := Nat.mod_lt _ (by norm_num)
                  have henc : encChar c = ['\\', 'u', '0', '0',
                      hexDigitChar (c.toNat / 16), hexDigitChar (c.toNat % 16)] := by
                    simp [encChar, h1, h2, h3, h4, h5, h6, h7, h8]
                  rw [henc]
                  simp only [List.cons_append, List.nil_append]
                  have e1 : parseStringBody ('\\' :: 'u' :: '0' :: '0' ::
                      hexDigitChar (c.toNat / 16) :: hexDigitChar (c.toNat % 16) :: t)
                      = match hexVal '0', hexVal '0', hexVal (hexDigitChar (c.toNat / 16)),
                          hexVal (hexDigitChar (c.toNat % 16)) with
                        | some a, some b, some c2, some d =>
                          (parseStringBody t).map
                            (fun r => (Char.ofNat (((a * 16 + b) * 16 + c2) * 16 + d)
                              :: r.1, r.2))
                        | _, _, _, _ => none := rfl
                  rw [e1, hexVal_hexDigitChar _ hd1, hexVal_hexDigitChar _ hd2]
                  have h0 : hexVal '0' = some 0 := rfl
                  rw [h0]
                  have harith : c.toNat / 16 * 16 + c.toNat % 16 = c.toNat := by omega
                  simp [harith, Char.ofNat_toNat]
                · have henc : encChar c = [c] := by
                    simp [encChar, h1, h2, h3, h4, h5, h6, h7, h8]
                  rw [henc]
                  simp only [List.cons_append, List.nil_append]
                  rw [parseStringBody.eq_def]
                  simp [h1, h2, h8]

theorem parseStringBody_encodeChars (s rest : List Char) :
    parseStringBody (encodeChars s ++ '"' :: rest) = some (s, rest) := by
  induction s with
  | nil =>
    simp only [encodeChars, List.nil_append]
    rw [parseStringBody.eq_def]
    simp
  | cons c cs ih =>
    simp only [encodeChars]
    rw [List.append_assoc, parseStringBody_encChar, ih]
    rfl

theorem parseJString_encString (s : String) (rest : List Char) :
    parseJString (encString s ++ rest) = some (s, rest) := by
  have h : encString s ++ rest = '"' :: (encodeChars s.data ++ ('"' :: rest)) := by
    simp [encString]
  rw [h]
  simp only [parseJString]
  rw [skipWs_not_ws _ _ (by rfl)]
  simp [parseStringBody_encodeChars, mk_data]


theorem parseJString_ws (c : Char) (l : List Char) (h : isWs c = true) :
    parseJString (c :: l) = parseJString l := by
  simp only [parseJString]
  rw [show skipWs (c :: l) = skipWs l from by simp [skipWs, h]]

theorem parsePair_encPair (p : String × String) (rest : List Char) :
    parsePair (encPair p ++ rest) = some (p, rest) := by
  have h : encPair p ++ rest = encString p.1 ++ (':' :: ' ' :: (encString p.2 ++ rest)) := by
    simp [encPair]
  rw [h]
  simp only [parsePair]
  rw [parseJString_encString]
  have hws : parseJString (' ' :: (encString p.2 ++ rest))
      = parseJString (encString p.2 ++ rest) := parseJString_ws _ _ (by rfl)
  simp [skipWs, isWs, hws, parseJString_encString]

theorem parsePair_ws (c : Char) (l : List Char) (h : isWs c = true) :
    parsePair (c :: l) = parsePair l := by
  simp only [parsePair]
  rw [parseJString_ws _ _ h]

theorem parseMembersAux_ws (fuel : Nat) (c : Char) (l : List Char) (h : isWs c = true) :
    parseMembersAux fuel (c :: l) = parseMembersAux fuel l := by
  cases fuel with
  | zero => rfl
  | succ f =>
    simp only [parseMembersAux]
    rw [parsePair_ws _ _ h]

theorem parseMembersAux_encPairs :
    ∀ (ps : List (String × String)) (rest : List Char) (fuel : Nat), ps ≠ [] →
      ps.length ≤ fuel →
      parseMembersAux fuel (encPairs ps ++ '\n' :: '\x7d' :: rest) = some (ps, rest) := by
  intro ps
  induction ps with
  | nil =>
    intro rest fuel hne _
    exact absurd rfl hne
  | cons p ps ih =>
    intro rest fuel _ hfuel
    cases fuel with
    | zero => simp at hfuel
    | succ f =>
      rcases ps with _ | ⟨q, qs⟩
      · simp only [encPairs, parseMembersAux]
        rw [parsePair_encPair]
        have hsk : skipWs ('\n' :: '\x7d' :: rest) = '\x7d' :: rest := rfl
        simp [hsk]
      · have hsh : encPairs (p :: q :: qs) ++ '\n' :: '\x7d' :: rest
            = encPair p ++ (',' :: '\n' :: ' ' :: ' '
              :: (encPairs (q :: qs) ++ '\n' :: '\x7d' :: rest)) := by
          simp [encPairs]
        rw [hsh]
        simp only [parseMembersAux]
        rw [parsePair_encPair]
        have hsk : skipWs (',' :: '\n' :: ' ' :: ' '
            :: (encPairs (q :: qs) ++ '\n' :: '\x7d' :: rest))
            = ',' :: '\n' :: ' ' :: ' ' :: (encPairs (q :: qs) ++ '\n' :: '\x7d' :: rest) :=
          rfl
        have hw1 := parseMembersAux_ws f '\n'
          (' ' :: ' ' :: (encPairs (q :: qs) ++ '\n' :: '\x7d' :: rest)) (by rfl)
        have hw2 := parseMembersAux_ws f ' '
          (' ' :: (encPairs (q :: qs) ++ '\n' :: '\x7d' :: rest)) (by rfl)
        have hw3 := parseMembersAux_ws f ' '
          (encPairs (q :: qs) ++ '\n' :: '\x7d' :: rest) (by rfl)
        have hih := ih rest f (by simp) (by simpa using hfuel)
        simp [hsk, hw1, hw2, hw3, hih]

theorem encPairs_cons_head (p : String × String) (ps : List (String × String)) :
    ∃ t, encPairs (p :: ps) = '"' :: t := by
  rcases ps with _ | ⟨q, qs⟩
  · exact ⟨encodeChars p.1.data ++ '"' :: (':' :: ' ' :: encString p.2), by
      simp [encPairs, encPair, encString]⟩
  · exact ⟨encodeChars p.1.data ++ '"' :: (':' :: ' ' :: encString p.2)
      ++ (',' :: '\n' :: ' ' :: ' ' :: encPairs (q :: qs)), by
      simp [encPairs, encPair, encString]⟩

theorem encPairs_length (ps : List (String × String)) :
    ps.length ≤ (encPairs ps).length := by
  induction ps with
  | nil => simp [encPairs]
  | cons p ps ih =>
    rcases ps with _ | ⟨q, qs⟩
    · simp [encPairs, encPair, encString]
    · have h : encPairs (p :: q :: qs)
          = encPair p ++ (',' :: '\n' :: ' ' :: ' ' :: encPairs (q :: qs)) := by
        simp [encPairs]
      rw [h]
      simp only [List.length_append, List.length_cons]
      simp only [List.length_cons] at ih ⊢
      omega

theorem json_loads_dump (data : List (String × String)) :
    json_loads_mappings (json_dump_mappings data) = some (sortPairsByKey data) := by
  cases hs : sortPairsByKey data with
  | nil =>
    have hd : json_dump_mappings data = String.mk ['\x7b', '\x7d'] := by
      unfold json_dump_mappings
      rw [hs]
    rw [hd]
    rfl
  | cons p ps =>
    have hd : json_dump_mappings data
        = String.mk ('\x7b' :: '\n' :: ' ' :: ' '
          :: (encPairs (p :: ps) ++ ['\n', '\x7d'])) := by
      unfold json_dump_mappings
      rw [hs]
    rw [hd]
    rcases encPairs_cons_head p ps with ⟨t, ht⟩
    rw [ht, List.cons_append]
    have hstep : json_loads_mappings (String.mk ('\x7b' :: '\n' :: ' ' :: ' '
        :: ('"' :: (t ++ ['\n', '\x7d']))))
        = (match parseMembersAux (('"' :: (t ++ ['\n', '\x7d'])).length + 1)
            ('"' :: (t ++ ['\n', '\x7d'])) with
          | none => none
          | some (ps2, rest) => if (skipWs rest).isEmpty then some ps2 else none) := rfl
    rw [hstep]
    have hbound : (p :: ps).length ≤ ('"' :: (t ++ ['\n', '\x7d'])).length + 1 := by
      have h1 := encPairs_length (p :: ps)
      rw [ht] at h1
      simp only [List.length_cons, List.length_append] at h1 ⊢
      omega
    have hmem := parseMembersAux_encPairs (p :: ps) []
      (('"' :: (t ++ ['\n', '\x7d'])).length + 1) (by simp) hbound
    rw [ht, List.cons_append] at hmem
    rw [show ('\n' :: '\x7d' :: ([] : List Char)) = ['\n', '\x7d'] from rfl] at hmem
    rw [hmem]
    rfl

theorem entry_unique_of_nodup_keys {α : Type} (l : List (String × α))
    (hnd : (l.map Prod.fst).Nodup) (p q : String × α)
    (hp : p ∈ l) (hq : q ∈ l) (hkey : p.1 = q.1) : p = q := by
  induction l with
  | nil => cases hp
  | cons r rs ih =>
    rw [List.map_cons, List.nodup_cons] at hnd
    rcases List.mem_cons.mp hp with rfl | hp2
    · rcases List.mem_cons.mp hq with rfl | hq2
      · rfl
      · exfalso
        apply hnd.1
        rw [hkey]
        exact List.mem_map_of_mem Prod.fst hq2
    · rcases List.mem_cons.mp hq with rfl | hq2
      · exfalso
        apply hnd.1
        rw [← hkey]
        exact List.mem_map_of_mem Prod.fst hp2
      · exact ih hnd.2 hp2 hq2

theorem alistGet_perm {α : Type} (l1 l2 : List (String × α)) (hperm : l1.Perm l2)
    (hnd : (l1.map Prod.fst).Nodup) (k : String) : alistGet l1 k = alistGet l2 k := by
  cases h1 : alistGet l1 k with
  | none =>
    unfold alistGet at h1 ⊢
    cases hf : l1.find? (fun p => p.1 == k) with
    | some pr => rw [hf] at h1; simp at h1
    | none =>
      rw [List.find?_eq_none.mpr]
      · rfl
      · intro x hx
        exact List.find?_eq_none.mp hf x (hperm.mem_iff.mpr hx)
  | some v =>
    unfold alistGet at h1 ⊢
    cases hf : l1.find? (fun p => p.1 == k) with
    | none => rw [hf] at h1; simp at h1
    | some pr =>
      rw [hf] at h1
      simp at h1
      have hprmem : pr ∈ l1 := List.mem_of_find?_eq_some hf
      have hpr : (pr.1 == k) = true :=
        @List.find?_some (String × α) (fun p => p.1 == k) pr l1 hf
      have hprmem2 : pr ∈ l2 := hperm.mem_iff.mp hprmem
      cases hf2 : l2.find? (fun p => p.1 == k) with
      | none =>
        exfalso
        exact (List.find?_eq_none.mp hf2 pr hprmem2) hpr
      | some qr =>
        have hqmem : qr ∈ l1 := hperm.mem_iff.mpr (List.mem_of_find?_eq_some hf2)
        have hq : (qr.1 == k) = true :=
          @List.find?_some (String × α) (fun p => p.1 == k) qr l2 hf2
        have hqp : qr = pr := entry_unique_of_nodup_keys l1 hnd qr pr hqmem hprmem
          ((eq_of_beq hq).trans (eq_of_beq hpr).symm)
        rw [hqp]
        simp [h1]

/-- Claim C5: for every string-to-string mapping with unique keys, persisting
the identity cache with the atomic writer and then loading it from the same
path returns an equal mapping (equal lookups at every key). -/
theorem C5_persist_load_roundtrip (m fs : List (String × String)) (path tempPath : String)
    (hnd : (m.map Prod.fst).Nodup) :
    ∀ k, alistGet (load_mappings path (atomic_write_json m path tempPath fs)) k
      = alistGet m k := by
  intro k
  have hfile : alistGet (atomic_write_json m path tempPath fs) path
      = some (json_dump_mappings m) := by
    unfold atomic_write_json
    exact alistGet_cacheSet_self _ _ _
  unfold load_mappings
  rw [hfile]
  simp only [json_loads_dump]
  have hperm : (sortPairsByKey m).Perm m := List.perm_insertionSort _ m
  have hnd2 : ((sortPairsByKey m).map Prod.fst).Nodup :=
    ((hperm.map Prod.fst).nodup_iff).mpr hnd
  exact alistGet_perm _ _ hperm hnd2 k

/-- Claim C6: loading the identity cache returns an empty mapping, without
raising, whenever the cache file does not exist or its stored contents fail
to parse; a parse failure is a non-fatal cold start. -/
theorem C6_load_mappings_cold_start (path : String) (fs : List (String × String))
    (content : String) :
    (alistGet fs path = none → load_mappings path fs = []) ∧
    (alistGet fs path = some content → json_loads_mappings content = none →
      load_mappings path fs = []) := by
  constructor
  · intro h
    simp [load_mappings, h]
  · intro h hp
    simp [load_mappings, h, hp]

/-- Witness for Claim C5: a concrete two-entry mapping written in unsorted
order round-trips through persist and load with equal lookups. -/
theorem C5_witness :
    ((([("b", "2"), ("a", "1")] : List (String × String)).map Prod.fst).Nodup) ∧
    alistGet (load_mappings "cache.json"
        (atomic_write_json [("b", "2"), ("a", "1")] "cache.json" "cache.tmp" []))
      "a" = alistGet [("b", "2"), ("a", "1")] "a" ∧
    alistGet (load_mappings "cache.json"
        (atomic_write_json [("b", "2"), ("a", "1")] "cache.json" "cache.tmp" []))
      "b" = some "2" := by
  have hnd : ((([("b", "2"), ("a", "1")] : List (String × String))).map Prod.fst).Nodup := by
    decide
  have h := C5_persist_load_roundtrip [("b", "2"), ("a", "1")] [] "cache.json" "cache.tmp" hnd
  refine ⟨hnd, h "a", ?_⟩
  rw [h "b"]
  rfl

/-- Witness for Claim C6 at a missing file and at a file holding malformed
JSON. -/
theorem C6_witness :
    alistGet ([] : List (String × String)) "cache.json" = none ∧
    load_mappings "cache.json" [] = [] ∧
    alistGet [("cache.json", "not json")] "cache.json" = some "not json" ∧
    json_loads_mappings "not json" = none ∧
    load_mappings "cache.json" [("cache.json", "not json")] = [] := by
  refine ⟨rfl, (C6_load_mappings_cold_start "cache.json" [] "x").1 rfl, rfl, rfl, ?_⟩
  exact (C6_load_mappings_cold_start "cache.json" [("cache.json", "not json")]
    "not json").2 rfl rfl

end NotionSync
